import Mathlib

/-!
# A shallow embedding of `server.py` (proxy_server)

This development models the request-dispatch, forward-and-cache and CONNECT
tunnel engine of `server.py` and proves properties of it.

Modelling conventions:

* Python byte strings and text strings are modelled as Lean `String`s over
  their ASCII code points; `bytes.decode()` / `str.encode()` are the identity
  on this domain.  All inputs the theorems speak about are ASCII.
* Machine-word arithmetic (MD5) is modelled on `Nat` with explicit reduction
  modulo `2 ^ 32` (and `2 ^ 64` for the length field).
* Socket I/O is modelled by an explicit environment (`Env`): the bytes read
  from each peer are given as streams of `recv` results, and each `sendall`
  on the client socket either succeeds or raises, according to the
  environment.  The observable behaviour of a handler is the list of I/O
  events it performs plus a flag recording whether an exception escaped it.
* The `urllib.parse` functions are modelled from CPython 3.11 (the last
  version that still provides `ssl.wrap_socket`, which `server.py` calls):
  `urlsplit`, `_splitnetloc`, `_splitparams`, and the `hostname` / `port`
  properties of the result.  `_checknetloc` only acts on non-ASCII netlocs
  and is a no-op on the modelled domain.
-/

namespace ProxyServer

/-! ## Python string primitives (ASCII model) -/

/-- ASCII whitespace recognised by `bytes.split()` / `bytes.strip()`:
space, tab, newline, carriage return, vertical tab, form feed. -/
def pyIsSpace (c : Char) : Bool :=
  c.toNat = 32 || c.toNat = 9 || c.toNat = 10 || c.toNat = 13 || c.toNat = 11 || c.toNat = 12

/-- Auxiliary for `pySplitWS`: split on whitespace runs, dropping empties. -/
def splitWSAux : List Char → List Char → List (List Char)
  | [], acc => if acc.isEmpty then [] else [acc.reverse]
  | c :: cs, acc =>
    if pyIsSpace c then
      if acc.isEmpty then splitWSAux cs [] else acc.reverse :: splitWSAux cs []
    else
      splitWSAux cs (c :: acc)

/-- Python `s.split()` with no separator: split on runs of ASCII whitespace,
discarding empty fields. -/
def pySplitWS (s : String) : List String :=
  (splitWSAux s.data []).map String.mk

/-- Python `s.strip()`: remove leading and trailing ASCII whitespace. -/
def stripWS (l : List Char) : List Char :=
  ((l.dropWhile pyIsSpace).reverse.dropWhile pyIsSpace).reverse

/-- Python `s.strip()` on strings. -/
def pyStrip (s : String) : String :=
  String.mk (stripWS s.data)

/-- Python `s.lstrip('/')`: drop all leading slashes. -/
def lstripSlash (s : String) : String :=
  String.mk (s.data.dropWhile (fun c => c.toNat = 47))

/-- Does `hay` start with `needle` (on character lists)? -/
def listStartsWith : List Char → List Char → Bool
  | _, [] => true
  | [], _ :: _ => false
  | a :: as, b :: bs => a = b && listStartsWith as bs

/-- Python `s.startswith(t)`. -/
def pyStartsWith (s t : String) : Bool :=
  listStartsWith s.data t.data

/-- Auxiliary for `pySplitSep`: split at every non-overlapping leftmost
occurrence of `sep` (nonempty).  The fuel starts at the list length, which
always suffices since every step consumes at least one character. -/
def splitSepAux (sep : List Char) : Nat → List Char → List Char → List (List Char)
  | _, [], acc => [acc.reverse]
  | 0, l, acc => [acc.reverse ++ l]
  | fuel + 1, c :: rest, acc =>
    if listStartsWith (c :: rest) sep then
      acc.reverse :: splitSepAux sep fuel ((c :: rest).drop sep.length) []
    else
      splitSepAux sep fuel rest (c :: acc)

/-- Python `s.split(sep)` for a nonempty separator: split on every
non-overlapping occurrence, keeping empty fields. -/
def pySplitSep (s sep : String) : List String :=
  (splitSepAux sep.data s.data.length s.data []).map String.mk

/-- Substring containment on character lists (Python `needle in hay`). -/
def listContainsSub : List Char → List Char → Bool
  | [], needle => needle.isEmpty
  | h :: t, needle => listStartsWith (h :: t) needle || listContainsSub t needle

/-- Python `needle in hay` for strings. -/
def strContains (hay needle : String) : Bool :=
  listContainsSub hay.data needle.data

/-- Does the character list contain the character with ASCII code `k`? -/
def containsChar (l : List Char) (k : Nat) : Bool :=
  l.any (fun c => c.toNat = k)

/-- Index of the first character with code `k`, if any. -/
def findCharIdx : List Char → Nat → Option Nat
  | [], _ => none
  | c :: t, k => if c.toNat = k then some 0 else (findCharIdx t k).map (· + 1)

/-- Index of the first character whose code lies in `ks`, if any. -/
def findCharSetIdx : List Char → List Nat → Option Nat
  | [], _ => none
  | c :: t, ks => if ks.contains c.toNat then some 0 else (findCharSetIdx t ks).map (· + 1)

/-- Python `s.partition(sep)` for a one-character separator `k` (ASCII code):
`(before, found?, after)` at the first occurrence; `(s, false, "")` when absent. -/
def partitionChar (l : List Char) (k : Nat) : List Char × Bool × List Char :=
  match findCharIdx l k with
  | some i => (l.take i, true, l.drop (i + 1))
  | none => (l, false, [])

/-- Python `s.rpartition(sep)` for a one-character separator `k`:
`(before, found?, after)` at the last occurrence; `("", false, s)` when absent. -/
def rpartitionChar (l : List Char) (k : Nat) : List Char × Bool × List Char :=
  match findCharIdx l.reverse k with
  | some ri => (l.take (l.length - 1 - ri), true, l.drop (l.length - ri))
  | none => ([], false, l)

/-- Python `s.split(sep, 1)` for a one-character separator, assuming it occurs. -/
def splitAtCharFirst (l : List Char) (k : Nat) : List Char × List Char :=
  match findCharIdx l k with
  | some i => (l.take i, l.drop (i + 1))
  | none => (l, [])

/-- ASCII decimal digit. -/
def isAsciiDigit (c : Char) : Bool :=
  48 ≤ c.toNat && c.toNat ≤ 57

/-- ASCII letter. -/
def isAsciiAlpha (c : Char) : Bool :=
  (65 ≤ c.toNat && c.toNat ≤ 90) || (97 ≤ c.toNat && c.toNat ≤ 122)

/-- ASCII lowercasing of one character. -/
def toLowerAscii (c : Char) : Char :=
  if 65 ≤ c.toNat && c.toNat ≤ 90 then Char.ofNat (c.toNat + 32) else c

/-- Python `s.lower()` on ASCII character lists. -/
def pyLowerL (l : List Char) : List Char :=
  l.map toLowerAscii

/-- Numeric value of an all-digit character list. -/
def digitsToNat : List Char → Nat → Nat
  | [], acc => acc
  | c :: t, acc => digitsToNat t (acc * 10 + (c.toNat - 48))

/-- Digit run accepted by Python `int()`: nonempty digits, with single
underscores allowed strictly between digits. Returns its value. -/
def pyDigits : List Char → Nat → Bool → Option Nat
  | [], acc, seen => if seen then some acc else none
  | c :: cs, acc, seen =>
    if isAsciiDigit c then pyDigits cs (acc * 10 + (c.toNat - 48)) true
    else if c.toNat = 95 then
      match cs with
      | d :: _ => if seen && isAsciiDigit d then pyDigits cs acc seen else none
      | [] => none
    else none

/-- Python `int(s)` (base 10): strip whitespace, optional sign, digit run.
`none` models the `ValueError`. -/
def pyIntOpt (s : String) : Option Int :=
  match stripWS s.data with
  | [] => none
  | c :: rest =>
    if c.toNat = 43 then (pyDigits rest 0 false).map Int.ofNat
    else if c.toNat = 45 then (pyDigits rest 0 false).map (fun n => -(Int.ofNat n))
    else (pyDigits (c :: rest) 0 false).map Int.ofNat

/-! ## MD5 (`hashlib.md5(...).hexdigest()`), RFC 1321 -/

/-- Reduce modulo `2 ^ 32`. -/
def w32 (n : Nat) : Nat := n % 4294967296

/-- Bitwise complement within 32 bits (valid for `x < 2 ^ 32`). -/
def mnot (x : Nat) : Nat := 4294967295 - x

/-- 32-bit left rotation (valid for `x < 2 ^ 32`). -/
def rotl (x s : Nat) : Nat := w32 (x * 2 ^ s) + x / 2 ^ (32 - s)

/-- MD5 per-round shift amounts. -/
def md5S : List Nat :=
  [7, 12, 17, 22, 7, 12, 17, 22, 7, 12, 17, 22, 7, 12, 17, 22,
   5, 9, 14, 20, 5, 9, 14, 20, 5, 9, 14, 20, 5, 9, 14, 20,
   4, 11, 16, 23, 4, 11, 16, 23, 4, 11, 16, 23, 4, 11, 16, 23,
   6, 10, 15, 21, 6, 10, 15, 21, 6, 10, 15, 21, 6, 10, 15, 21]

/-- MD5 sine-derived constants. -/
def md5K : List Nat :=
  [0xd76aa478, 0xe8c7b756, 0x242070db, 0xc1bdceee,
   0xf57c0faf, 0x4787c62a, 0xa8304613, 0xfd469501,
   0x698098d8, 0x8b44f7af, 0xffff5bb1, 0x895cd7be,
   0x6b901122, 0xfd987193, 0xa679438e, 0x49b40821,
   0xf61e2562, 0xc040b340, 0x265e5a51, 0xe9b6c7aa,
   0xd62f105d, 0x02441453, 0xd8a1e681, 0xe7d3fbc8,
   0x21e1cde6, 0xc33707d6, 0xf4d50d87, 0x455a14ed,
   0xa9e3e905, 0xfcefa3f8, 0x676f02d9, 0x8d2a4c8a,
   0xfffa3942, 0x8771f681, 0x6d9d6122, 0xfde5380c,
   0xa4beea44, 0x4bdecfa9, 0xf6bb4b60, 0xbebfbc70,
   0x289b7ec6, 0xeaa127fa, 0xd4ef3085, 0x04881d05,
   0xd9d4d039, 0xe6db99e5, 0x1fa27cf8, 0xc4ac5665,
   0xf4292244, 0x432aff97, 0xab9423a7, 0xfc93a039,
   0x655b59c3, 0x8f0ccc92, 0xffeff47d, 0x85845dd1,
   0x6fa87e4f, 0xfe2ce6e0, 0xa3014314, 0x4e0811a1,
   0xf7537e82, 0xbd3af235, 0x2ad7d2bb, 0xeb86d391]

/-- `k` little-endian bytes of `n`. -/
def leBytes : Nat → Nat → List Nat
  | 0, _ => []
  | k + 1, n => (n % 256) :: leBytes k (n / 256)

/-- Little-endian 32-bit word `g` of a 64-byte chunk. -/
def leWordAt (chunk : List Nat) (g : Nat) : Nat :=
  chunk.getD (4 * g) 0 + 256 * chunk.getD (4 * g + 1) 0 +
    65536 * chunk.getD (4 * g + 2) 0 + 16777216 * chunk.getD (4 * g + 3) 0

/-- MD5 running state. -/
structure MD5State where
  a : Nat
  b : Nat
  c : Nat
  d : Nat

/-- MD5 initial state. -/
def md5Init : MD5State :=
  ⟨0x67452301, 0xefcdab89, 0x98badcfe, 0x10325476⟩

/-- One of the 64 MD5 rounds on one chunk. -/
def md5Round (chunk : List Nat) (st : MD5State) (i : Nat) : MD5State :=
  let f :=
    if i < 16 then (st.b &&& st.c) ||| (mnot st.b &&& st.d)
    else if i < 32 then (st.d &&& st.b) ||| (mnot st.d &&& st.c)
    else if i < 48 then st.b ^^^ st.c ^^^ st.d
    else st.c ^^^ (st.b ||| mnot st.d)
  let g :=
    if i < 16 then i
    else if i < 32 then (5 * i + 1) % 16
    else if i < 48 then (3 * i + 5) % 16
    else (7 * i) % 16
  let f2 := w32 (f + st.a + md5K.getD i 0 + leWordAt chunk g)
  ⟨st.d, w32 (st.b + rotl f2 (md5S.getD i 0)), st.b, st.c⟩

/-- Process one 64-byte chunk. -/
def md5Chunk (st : MD5State) (chunk : List Nat) : MD5State :=
  let r := (List.range 64).foldl (md5Round chunk) st
  ⟨w32 (st.a + r.a), w32 (st.b + r.b), w32 (st.c + r.c), w32 (st.d + r.d)⟩

/-- Process the padded message 64 bytes at a time (fuel-indexed; the fuel is
always at least the number of chunks). -/
def md5Chunks : Nat → MD5State → List Nat → MD5State
  | 0, st, _ => st
  | _ + 1, st, [] => st
  | fuel + 1, st, b :: rest =>
    md5Chunks fuel (md5Chunk st ((b :: rest).take 64)) ((b :: rest).drop 64)

/-- MD5 padding: `0x80`, zeros to 56 mod 64, 8-byte little-endian bit length. -/
def md5Pad (msg : List Nat) : List Nat :=
  msg ++ [128] ++ List.replicate ((119 - msg.length % 64) % 64) 0 ++
    leBytes 8 ((8 * msg.length) % 18446744073709551616)

/-- MD5 digest (16 bytes) of a byte list. -/
def md5Bytes (msg : List Nat) : List Nat :=
  let padded := md5Pad msg
  let st := md5Chunks padded.length md5Init padded
  leBytes 4 st.a ++ leBytes 4 st.b ++ leBytes 4 st.c ++ leBytes 4 st.d

/-- Lowercase hexadecimal alphabet. -/
def hexChars : List Char := "0123456789abcdef".data

/-- Two lowercase hex characters of one byte (`%02x`). -/
def byteHex (b : Nat) : List Char :=
  [hexChars.getD (b / 16 % 16) (Char.ofNat 48), hexChars.getD (b % 16) (Char.ofNat 48)]

/-- Hex rendering of a byte list. -/
def bytesToHex : List Nat → List Char
  | [] => []
  | b :: t => byteHex b ++ bytesToHex t

/-- ASCII code points of a string (`str.encode()` on the ASCII domain). -/
def strBytes (s : String) : List Nat :=
  s.data.map Char.toNat

/-- `hashlib.md5(s.encode()).hexdigest()`. -/
def md5Hex (s : String) : String :=
  String.mk (bytesToHex (md5Bytes (strBytes s)))

/-- The module-level cache directory of `server.py`. -/
def cache_dir : String := "cache"

/-- `get_cache_filename` (lines 20-23): `os.path.join(cache_dir, md5-hexdigest)`. -/
def get_cache_filename (url : String) : String :=
  cache_dir ++ "/" ++ md5Hex url

/-! ## `urllib.parse` model (CPython 3.11) -/

/-- Result of `urlsplit` / `urlparse` (the `params` component is dropped by
`_splitparams` before `server.py` ever reads `.path`, so it is not stored). -/
structure SplitResult where
  scheme : String
  netloc : String
  path : String
  query : String
  fragment : String
deriving DecidableEq

/-- Characters permitted in a URL scheme. -/
def isSchemeChar (c : Char) : Bool :=
  isAsciiAlpha c || isAsciiDigit c || c.toNat = 43 || c.toNat = 45 || c.toNat = 46

/-- Schemes for which `urlparse` splits `;params` off the path. -/
def uses_params : List String :=
  ["", "ftp", "hdl", "prospero", "http", "imap", "https", "shttp", "rtsp",
   "rtspu", "sip", "sips", "mms", "sftp", "tel"]

/-- `_splitnetloc`: netloc runs up to the first of `/`, `?`, `#`. -/
def splitnetloc (l : List Char) : List Char × List Char :=
  match findCharSetIdx l [47, 63, 35] with
  | some i => (l.take i, l.drop i)
  | none => (l, [])

/-- `urlsplit` (CPython 3.11): remove unsafe bytes, detect scheme, netloc,
fragment, query.  `.error` models the `Invalid IPv6 URL` `ValueError`.
`_checknetloc` only raises for non-ASCII netlocs and is a no-op here. -/
def urlsplitE (url : String) : Except Unit SplitResult :=
  let u0 := url.data.filter (fun c => !(c.toNat = 9 || c.toNat = 13 || c.toNat = 10))
  let sp :=
    match findCharIdx u0 58 with
    | some i =>
      if 0 < i && (match u0 with | c :: _ => isAsciiAlpha c | [] => false) &&
          (u0.take i).all isSchemeChar then
        (pyLowerL (u0.take i), u0.drop (i + 1))
      else ([], u0)
    | none => ([], u0)
  let scheme := sp.1
  let u1 := sp.2
  let nl :=
    match u1 with
    | a :: b :: rest =>
      if a.toNat = 47 && b.toNat = 47 then
        some (splitnetloc rest)
      else none
    | _ => none
  let netloc := match nl with | some p => p.1 | none => []
  let u2 := match nl with | some p => p.2 | none => u1
  if (containsChar netloc 91 && !containsChar netloc 93) ||
      (containsChar netloc 93 && !containsChar netloc 91) then
    .error ()
  else
    let fq :=
      if containsChar u2 35 then splitAtCharFirst u2 35 else (u2, [])
    let u3 := fq.1
    let fragment := fq.2
    let qq :=
      if containsChar u3 63 then splitAtCharFirst u3 63 else (u3, [])
    .ok ⟨String.mk scheme, String.mk netloc, String.mk qq.1,
         String.mk qq.2, String.mk fragment⟩

/-- `_splitparams`: drop `;params` from the last path segment
(`url.find(';', url.rfind('/'))` is the first `;` at or after the last `/`,
i.e. the first `;` of the part after the last `/`). -/
def splitparams (path : List Char) : List Char :=
  if containsChar path 47 then
    match findCharIdx (rpartitionChar path 47).2.2 59 with
    | some i =>
      (rpartitionChar path 47).1 ++ [Char.ofNat 47] ++ ((rpartitionChar path 47).2.2).take i
    | none => path
  else
    match findCharIdx path 59 with
    | some i => path.take i
    | none => path

/-- `urlparse` (CPython 3.11): `urlsplit`, then `_splitparams` on the path
when the scheme uses params and the path contains a `;`. -/
def urlparseE (url : String) : Except Unit SplitResult :=
  match urlsplitE url with
  | .error e => .error e
  | .ok r =>
    if uses_params.contains r.scheme && containsChar r.path.data 59 then
      .ok { r with path := String.mk (splitparams r.path.data) }
    else
      .ok r

/-- `_hostinfo`: host and optional port text, from the netloc. -/
def hostinfoOf (netloc : List Char) : List Char × Option (List Char) :=
  let hostinfo := (rpartitionChar netloc 64).2.2
  if (partitionChar hostinfo 91).2.1 then
    let bracketed := (partitionChar hostinfo 91).2.2
    let hp := partitionChar bracketed 93
    let port := (partitionChar hp.2.2 58).2.2
    (hp.1, if port.isEmpty then none else some port)
  else
    let hp := partitionChar hostinfo 58
    (hp.1, if hp.2.2.isEmpty then none else some hp.2.2)

/-- The `hostname` property: lowercased host, `None` when empty; an IPv6
zone suffix (after `%`) is preserved unlowered. -/
def pyHostname (r : SplitResult) : Option String :=
  let hostname := (hostinfoOf r.netloc.data).1
  if hostname.isEmpty then none
  else
    let hz := partitionChar hostname 37
    some (String.mk (pyLowerL hz.1 ++ (if hz.2.1 then Char.ofNat 37 :: hz.2.2 else [])))

/-- The `port` property: `None` when absent; all-ASCII-digits parse with a
0..65535 range check, `ValueError` otherwise. -/
def pyPortE (r : SplitResult) : Except Unit (Option Nat) :=
  match (hostinfoOf r.netloc.data).2 with
  | none => .ok none
  | some p =>
    if !p.isEmpty && p.all isAsciiDigit then
      let v := digitsToNat p 0
      if v ≤ 65535 then .ok (some v) else .error ()
    else .error ()

/-! ## The server (`server.py`)

The observable behaviour of a handler is a list of I/O events.  The
environment fixes what the sockets and the file system do:

* `cache f = some c` means the cache file `f` exists with contents `c`
  (`os.path.exists` + `open(...).read()`);
* `clientSendOk n` tells whether the `n`-th `sendall` on the client socket
  (counting from 0, per accepted connection) succeeds or raises;
* `originConnectOk` / `upstreamConnectOk` tell whether `connect` (plus, for
  CONNECT, the TLS handshake) to the origin / tunnel upstream succeeds;
* `originChunks` are the successive `recv` results from the origin; the
  stream ends (or contains `""`) where the origin closes the connection;
* `cacheWriteOk` tells whether writing the cache file succeeds (a failure
  is logged and swallowed, lines 140-141);
* `tunnelClient` / `tunnelUpstream` are the successive `recv` results of
  the two sides of a CONNECT tunnel; a stream's end models `recv`
  returning `b""`.  `sendall` to the origin/upstream sockets and `recv`
  on the initial client request are modelled as succeeding.
-/

/-- One `recv` result: data (empty = peer closed) or a raised exception. -/
inductive RecvOutcome where
  | data (s : String)
  | err
deriving DecidableEq

/-- Observable I/O events of the server, in order. -/
inductive Event where
  | sendClient (d : String)
  | closeClient
  | connectOrigin (host : String) (port : Nat)
  | sendOrigin (d : String)
  | cacheWrite (file : String) (contents : String)
  | connectUpstream (host : Option String) (port : Nat)
  | sendUpstream (d : String)
deriving DecidableEq

/-- The environment a connection is handled in. -/
structure Env where
  cache : String → Option String
  clientSendOk : Nat → Bool
  originConnectOk : Bool
  originChunks : List String
  cacheWriteOk : Bool
  upstreamConnectOk : Bool
  tunnelClient : List RecvOutcome
  tunnelUpstream : List RecvOutcome

/-- The response-status strings of `server.py`. -/
def s200 : String := "HTTP/1.1 200 Connection Established\r\n\r\n"

/-- `400 Bad Request` response bytes. -/
def s400 : String := "HTTP/1.1 400 Bad Request\r\n\r\n"

/-- `405 Method Not Allowed` response bytes. -/
def s405 : String := "HTTP/1.1 405 Method Not Allowed\r\n\r\n"

/-- `500 Internal Server Error` response bytes. -/
def s500 : String := "HTTP/1.1 500 Internal Server Error\r\n\r\n"

/-- Result of `handle_https_request`: events, next client-send index, and
whether an exception escaped it (into `handle_client_request`'s handler). -/
structure HttpsRes where
  events : List Event
  sendIdx : Nat
  raised : Bool
deriving DecidableEq

/-- The tunnel relay loop (lines 38-47): alternately `recv` from the client,
forward to upstream, `recv` from upstream, forward to the client, until a
`recv` returns no bytes (break) or an exception occurs. -/
def tunnelLoop (sendOk : Nat → Bool) :
    List RecvOutcome → List RecvOutcome → Nat → HttpsRes
  | [], _, idx => ⟨[], idx, false⟩
  | .err :: _, _, idx => ⟨[], idx, true⟩
  | .data d :: cs, us, idx =>
    if d = "" then ⟨[], idx, false⟩
    else
      match us with
      | [] => ⟨[.sendUpstream d], idx, false⟩
      | .err :: _ => ⟨[.sendUpstream d], idx, true⟩
      | .data e :: us2 =>
        if e = "" then ⟨[.sendUpstream d], idx, false⟩
        else if sendOk idx then
          let r := tunnelLoop sendOk cs us2 (idx + 1)
          ⟨.sendUpstream d :: .sendClient e :: r.events, r.sendIdx, r.raised⟩
        else ⟨[.sendUpstream d], idx + 1, true⟩

/-- The `except` branch of `handle_https_request` (lines 49-51) followed by
the unconditional close (line 53): log, send 500, close.  If the 500 send
itself raises, the close is skipped and the exception propagates. -/
def httpsExcept (env : Env) (evs : List Event) (idx : Nat) : HttpsRes :=
  if env.clientSendOk idx then ⟨evs ++ [.sendClient s500, .closeClient], idx + 1, false⟩
  else ⟨evs, idx + 1, true⟩

/-- `handle_https_request` (lines 25-53).  `urlparse` and the `port`
property run before the `try`, so their `ValueError`s propagate to the
caller.  TCP connect and the TLS client handshake are folded into
`upstreamConnectOk`. -/
def handle_https_request (env : Env) (idx : Nat) (url : String) : HttpsRes :=
  match urlparseE url with
  | .error _ => ⟨[], idx, true⟩
  | .ok pu =>
    match pyPortE pu with
    | .error _ => ⟨[], idx, true⟩
    | .ok portOpt =>
      let host := pyHostname pu
      let port := portOpt.getD 443
      let ev0 : List Event := [.connectUpstream host port]
      if env.upstreamConnectOk then
        if env.clientSendOk idx then
          let t := tunnelLoop env.clientSendOk env.tunnelClient env.tunnelUpstream (idx + 1)
          if t.raised then
            httpsExcept env (ev0 ++ [.sendClient s200] ++ t.events) t.sendIdx
          else
            ⟨ev0 ++ [.sendClient s200] ++ t.events ++ [.closeClient], t.sendIdx, false⟩
        else httpsExcept env ev0 (idx + 1)
      else httpsExcept env ev0 idx

/-- Result of `handle_client_request`: events, and whether an exception
escaped it (leaving the client socket unclosed). -/
structure HRes where
  events : List Event
  raised : Bool
deriving DecidableEq

/-- The `except` branch of `handle_client_request` (lines 145-147) followed
by the close (line 149): send 400, close.  If the 400 send itself raises,
the close is skipped and the exception propagates. -/
def catch400 (env : Env) (evs : List Event) (idx : Nat) : HRes :=
  if env.clientSendOk idx then ⟨evs ++ [.sendClient s400, .closeClient], false⟩
  else ⟨evs, true⟩

/-- `request.split(b'\n')[0]`. -/
def firstLine (request : String) : String :=
  (pySplitSep request "\n").headD ""

/-- The URL rewrite of line 75: a target not starting with `http` becomes
`http://` plus the target stripped of leading slashes. -/
def rewriteUrl (url : String) : String :=
  if pyStartsWith url "http" then url else "http://" ++ lstripSlash url

/-- Lines 103-107: scan every line after the first for the substring
`Content-Length`; for each match, colon-split, take field 1, strip, parse
as int (the last match wins).  `.error` models `IndexError` (no colon) and
`ValueError` (bad int). -/
def contentLengthLoop : List String → Int → Except Unit Int
  | [], acc => .ok acc
  | h :: t, acc =>
    if strContains h "Content-Length" then
      match (pySplitSep h ":").drop 1 with
      | [] => .error ()
      | v :: _ =>
        match pyIntOpt (pyStrip v) with
        | none => .error ()
        | some n => contentLengthLoop t n
    else contentLengthLoop t acc

/-- Line 110: `request.split(b'\r\n\r\n')[1] if content_length > 0 else b''`.
`.error` models the `IndexError` when no blank-line separator exists. -/
def postBody (request : String) (cl : Int) : Except Unit String :=
  if cl > 0 then
    match (pySplitSep request "\r\n\r\n").drop 1 with
    | [] => .error ()
    | b :: _ => .ok b
  else .ok ""

/-- `parsed_url.path or '/'` (line 77). -/
def pathOrSlash (pu : SplitResult) : String :=
  if pu.path = "" then "/" else pu.path

/-- The request reconstruction of lines 100-114 (GET: fresh minimal request;
POST: Content-Length scan plus blank-line body extraction). -/
def buildRequest (method path host request : String) : Except Unit String :=
  if method = "GET" then
    .ok ("GET " ++ path ++ " HTTP/1.1\r\nHost: " ++ host ++ "\r\nConnection: close\r\n\r\n")
  else
    match contentLengthLoop ((pySplitSep request "\n").drop 1) 0 with
    | .error e => .error e
    | .ok cl =>
      match postBody request cl with
      | .error e => .error e
      | .ok body =>
        .ok ("POST " ++ path ++ " HTTP/1.1\r\nHost: " ++ host ++
             "\r\nContent-Length: " ++ toString cl ++ "\r\nConnection: close\r\n\r\n" ++ body)

/-- The origin read loop (lines 118-123): accumulate `recv` results until
one is empty (or the stream ends). -/
def recvConcat : List String → String
  | [] => ""
  | c :: cs => if c = "" then "" else c ++ recvConcat cs

/-- `handle_client_request` (lines 55-149).  Every `return` inside the `try`
skips the close at line 149; those paths close explicitly (or, for CONNECT,
inside `handle_https_request`).  Any exception in the `try` is caught at
line 145 and answered with a 400, then the connection is closed.  The
status-substring inspection of lines 126-131 only logs and is omitted. -/
def handle_client_request (env : Env) (request : String) : HRes :=
  match pySplitWS (firstLine request) with
  | [method, url, _v] =>
    if method = "CONNECT" then
      let r := handle_https_request env 0 url
      if r.raised then catch400 env r.events r.sendIdx else ⟨r.events, false⟩
    else if method ≠ "GET" ∧ method ≠ "POST" then
      if env.clientSendOk 0 then ⟨[.sendClient s405, .closeClient], false⟩
      else catch400 env [] 1
    else
      match urlparseE (rewriteUrl url) with
      | .error _ => catch400 env [] 0
      | .ok pu =>
        match pyHostname pu with
        | none =>
          if env.clientSendOk 0 then ⟨[.sendClient s400, .closeClient], false⟩
          else catch400 env [] 1
        | some host =>
          let cache_filename := get_cache_filename url
          if method = "GET" ∧ (env.cache cache_filename).isSome then
            if env.clientSendOk 0 then
              ⟨[.sendClient ((env.cache cache_filename).getD ""), .closeClient], false⟩
            else catch400 env [] 1
          else
            let evC : List Event := [.connectOrigin host 80]
            if env.originConnectOk then
              match buildRequest method (pathOrSlash pu) host request with
              | .error _ => catch400 env evC 0
              | .ok fullReq =>
                let response := recvConcat env.originChunks
                let evW : List Event :=
                  if response ≠ "" ∧ env.cacheWriteOk then
                    [.cacheWrite cache_filename response]
                  else []
                if env.clientSendOk 0 then
                  ⟨evC ++ [.sendOrigin fullReq] ++ evW ++
                    [.sendClient response, .closeClient], false⟩
                else catch400 env (evC ++ [.sendOrigin fullReq] ++ evW) 1
            else catch400 env evC 0
  | _ => catch400 env [] 0

/-- The bytes pushed to the client socket, in order. -/
def clientSends (evs : List Event) : List String :=
  evs.filterMap (fun e => match e with | .sendClient d => some d | _ => none)

/-- The data chunks of a `recv` stream (ignoring errors). -/
def dataChunks (l : List RecvOutcome) : List String :=
  l.filterMap (fun r => match r with | .data d => some d | _ => none)

/-- Replay the cache-file writes of a trace onto a cache state. -/
def applyCache (cache : String → Option String) : List Event → (String → Option String)
  | [] => cache
  | .cacheWrite f c :: t => applyCache (fun g => if g = f then some c else cache g) t
  | _ :: t => applyCache cache t

/-- A fully cooperative environment: empty cache, all client sends succeed,
origin reachable and answering `"PAYLOAD"`, cache writes succeed, upstream
reachable, both tunnel peers close immediately. -/
def envAll : Env where
  cache := fun _ => none
  clientSendOk := fun _ => true
  originConnectOk := true
  originChunks := ["PAYLOAD"]
  cacheWriteOk := true
  upstreamConnectOk := true
  tunnelClient := []
  tunnelUpstream := []

/-- `envAll` with a tunnel whose upstream `recv` raises after one client
chunk is relayed. -/
def envTunnelErr : Env :=
  { envAll with tunnelClient := [RecvOutcome.data "x"],
                tunnelUpstream := [RecvOutcome.err] }

/-- `envAll` with a tunnel exchanging one clean chunk in each direction. -/
def envTunnelOk : Env :=
  { envAll with tunnelClient := [RecvOutcome.data "hi"],
                tunnelUpstream := [RecvOutcome.data "yo"] }

/-! ## Helper lemmas -/

theorem leBytes_length (k : Nat) : ∀ n, (leBytes k n).length = k := by
  induction k with
  | zero => intro n; rfl
  | succ k ih => intro n; simp [leBytes, ih]

theorem md5Bytes_length (msg : List Nat) : (md5Bytes msg).length = 16 := by
  simp [md5Bytes, leBytes_length]

theorem bytesToHex_length : ∀ l : List Nat, (bytesToHex l).length = 2 * l.length := by
  intro l
  induction l with
  | nil => rfl
  | cons b t ih => simp [bytesToHex, byteHex, ih]; ring

theorem getD_mem_of_lt {α : Type} : ∀ (l : List α) (i : Nat) (d : α), i < l.length →
    l.getD i d ∈ l := by
  intro l
  induction l with
  | nil => intro i d h; exact absurd h (by simp)
  | cons x t ih =>
    intro i d h
    cases i with
    | zero => simp [List.getD]
    | succ j =>
      have : j < t.length := by simpa using h
      simpa [List.getD] using Or.inr (by simpa [List.getD] using ih j d this)

theorem byteHex_mem (b : Nat) : ∀ c ∈ byteHex b, c ∈ hexChars := by
  have h16 : hexChars.length = 16 := rfl
  have h1 : hexChars.getD (b / 16 % 16) (Char.ofNat 48) ∈ hexChars := by
    apply getD_mem_of_lt
    rw [h16]
    exact Nat.mod_lt _ (by norm_num)
  have h2 : hexChars.getD (b % 16) (Char.ofNat 48) ∈ hexChars := by
    apply getD_mem_of_lt
    rw [h16]
    exact Nat.mod_lt _ (by norm_num)
  intro c hc
  have hc2 : c ∈ [hexChars.getD (b / 16 % 16) (Char.ofNat 48),
      hexChars.getD (b % 16) (Char.ofNat 48)] := hc
  simp only [List.mem_cons, List.not_mem_nil, or_false] at hc2
  rcases hc2 with h | h
  · exact h ▸ h1
  · exact h ▸ h2

theorem bytesToHex_mem : ∀ (l : List Nat) (c : Char), c ∈ bytesToHex l → c ∈ hexChars := by
  intro l
  induction l with
  | nil => intro c hc; simp [bytesToHex] at hc
  | cons b t ih =>
    intro c hc
    rcases (by simpa [bytesToHex] using hc : c ∈ byteHex b ∨ c ∈ bytesToHex t) with h | h
    · exact byteHex_mem b c h
    · exact ih c h

set_option maxRecDepth 8000 in
theorem md5_test_vector_empty : md5Hex "" = "d41d8cd98f00b204e9800998ecf8427e" := by decide

set_option maxRecDepth 8000 in
theorem md5_test_vector_abc : md5Hex "abc" = "900150983cd24fb0d6963f7d28e17f72" := by decide

set_option maxRecDepth 8000 in
/-- Claim C9: for every target URL string `u`, the cache file name is the
lowercase hex digest of the MD5 hash of `u`, joined under the cache
directory; the key is a pure function of `u` (it is a Lean function); and
the digests of the two tested distinct literal URLs differ. -/
theorem c9_cache_key :
    (∀ u : String, get_cache_filename u = cache_dir ++ "/" ++ md5Hex u
      ∧ (md5Hex u).length = 32
      ∧ ∀ c ∈ (md5Hex u).data, c ∈ hexChars)
    ∧ md5Hex "http://a.example/x" ≠ md5Hex "http://a.example/y" := by
  constructor
  · intro u
    refine ⟨rfl, ?_, ?_⟩
    · have : (md5Hex u).length = (bytesToHex (md5Bytes (strBytes u))).length := rfl
      rw [this, bytesToHex_length, md5Bytes_length]
    · intro c hc
      exact bytesToHex_mem _ c hc
  · decide

/-- Claim C9 witness: the general part evaluated at the tested URL. -/
theorem c9_witness :
    get_cache_filename "http://a.example/x"
        = cache_dir ++ "/" ++ md5Hex "http://a.example/x"
      ∧ (md5Hex "http://a.example/x").length = 32
      ∧ md5Hex "http://a.example/x" ≠ md5Hex "http://a.example/y" :=
  ⟨(c9_cache_key.1 "http://a.example/x").1, (c9_cache_key.1 "http://a.example/x").2.1,
    c9_cache_key.2⟩

/-- Claim C2: refuted host extraction.  For the standard authority-form
CONNECT targets `example.com:443` and `example.com:8080`, `urlparse` treats
`example.com` as a URL scheme, so `hostname` is `None` and `port` is `None`:
the relay attempts TCP+TLS to `(None, 443)` — not to the requested host,
and (in the second case) not to the requested port 8080.  In CPython,
`socket.connect((None, 443))` resolves `None` to the local host. -/
theorem c2_connect_host_not_extracted :
    (handle_client_request envAll "CONNECT example.com:443 HTTP/1.1\r\n\r\n").events
        = [.connectUpstream none 443, .sendClient s200, .closeClient]
    ∧ (handle_client_request envAll "CONNECT example.com:8080 HTTP/1.1\r\n\r\n").events
        = [.connectUpstream none 443, .sendClient s200, .closeClient]
    ∧ urlparseE "example.com:8080"
        = .ok ⟨"example.com", "", "8080", "", ""⟩ := by
  refine ⟨by decide, by decide, rfl⟩

/-- Claim C7: a parseable request line whose method is not exactly CONNECT,
GET or POST (case-sensitively) is answered with exactly the 405 response,
the connection is closed, and no origin or upstream connection is opened
(the trace is exactly the 405 send followed by the close). -/
theorem c7_method_not_allowed (env : Env) (request method url v : String)
    (hparse : pySplitWS (firstLine request) = [method, url, v])
    (hc : method ≠ "CONNECT") (hg : method ≠ "GET") (hp : method ≠ "POST")
    (hsend : env.clientSendOk 0 = true) :
    handle_client_request env request = ⟨[.sendClient s405, .closeClient], false⟩ := by
  unfold handle_client_request
  rw [hparse]
  simp [hc, hg, hp, hsend]

set_option maxRecDepth 8000 in
/-- Claim C7 witness: a DELETE request. -/
theorem c7_witness :
    handle_client_request envAll "DELETE http://a.example/ HTTP/1.1\r\n\r\n"
      = ⟨[.sendClient s405, .closeClient], false⟩ :=
  c7_method_not_allowed envAll "DELETE http://a.example/ HTTP/1.1\r\n\r\n"
    "DELETE" "http://a.example/" "HTTP/1.1" (by decide) (by decide) (by decide) (by decide) rfl

set_option maxRecDepth 8000 in
/-- Claim C8: a request whose first line does not split into exactly three
whitespace-separated tokens is answered with exactly the 400 response and
the connection is closed (the unpacking `method, url, _ = split()` raises
`ValueError`, caught at line 145); and a parse exception later in
processing — here a non-integer `Content-Length` on a POST — likewise
yields exactly the 400 response to the client, then close. -/
theorem c8_bad_request :
    (∀ (env : Env) (request : String),
      (pySplitWS (firstLine request)).length ≠ 3 →
      env.clientSendOk 0 = true →
      handle_client_request env request = ⟨[.sendClient s400, .closeClient], false⟩)
    ∧ handle_client_request envAll
        "POST http://a.example/p HTTP/1.1\r\nContent-Length: abc\r\n\r\nhello"
      = ⟨[.connectOrigin "a.example" 80, .sendClient s400, .closeClient], false⟩ := by
  constructor
  · intro env request hlen hsend
    unfold handle_client_request
    cases hl : pySplitWS (firstLine request) with
    | nil => simp [catch400, hsend]
    | cons a t =>
      cases t with
      | nil => simp [catch400, hsend]
      | cons b t2 =>
        cases t2 with
        | nil => simp [catch400, hsend]
        | cons c t3 =>
          cases t3 with
          | nil => exact absurd (by rw [hl]; rfl) hlen
          | cons d t4 => simp [catch400, hsend]
  · decide

set_option maxRecDepth 8000 in
/-- Claim C8 witness: a single-token request line. -/
theorem c8_witness :
    handle_client_request envAll "X" = ⟨[.sendClient s400, .closeClient], false⟩ :=
  c8_bad_request.1 envAll "X" (by decide) rfl

theorem forward_events (env : Env) (request method url v : String) (pu : SplitResult)
    (host fr : String)
    (hparse : pySplitWS (firstLine request) = [method, url, v])
    (hm : method = "GET" ∨ method = "POST")
    (hurl : urlparseE (rewriteUrl url) = .ok pu)
    (hhost : pyHostname pu = some host)
    (hmiss : method = "GET" → env.cache (get_cache_filename url) = none)
    (hconn : env.originConnectOk = true)
    (hfr : buildRequest method (pathOrSlash pu) host request = .ok fr)
    (hsend : env.clientSendOk 0 = true) :
    handle_client_request env request =
      ⟨[.connectOrigin host 80, .sendOrigin fr] ++
        (if recvConcat env.originChunks ≠ "" ∧ env.cacheWriteOk then
          [.cacheWrite (get_cache_filename url) (recvConcat env.originChunks)]
        else []) ++
        [.sendClient (recvConcat env.originChunks), .closeClient], false⟩ := by
  unfold handle_client_request
  rw [hparse]
  rcases hm with hm | hm <;> subst hm
  · simp [hurl, hhost, hmiss rfl, hconn, hfr, hsend]
  · simp [hurl, hhost, hconn, hfr, hsend]

theorem cachehit_events (env : Env) (request url v : String) (pu : SplitResult)
    (host payload : String)
    (hparse : pySplitWS (firstLine request) = ["GET", url, v])
    (hurl : urlparseE (rewriteUrl url) = .ok pu)
    (hhost : pyHostname pu = some host)
    (hcache : env.cache (get_cache_filename url) = some payload)
    (hsend : env.clientSendOk 0 = true) :
    handle_client_request env request = ⟨[.sendClient payload, .closeClient], false⟩ := by
  unfold handle_client_request
  rw [hparse]
  simp [hurl, hhost, hcache, hsend]

set_option maxRecDepth 8000 in
/-- Claim C1 counterexample: after a first GET for `http://a.example/x`
stores the non-empty origin response `"PAYLOAD"` in the cache, a second
valid POST for the same literal URL still opens a connection to the origin
(the cache lookup is performed only for GET), refuting the claim for the
"GET or POST" second request. -/
theorem c1_counterexample :
    applyCache envAll.cache
        (handle_client_request envAll "GET http://a.example/x HTTP/1.1\r\n\r\n").events
        (get_cache_filename "http://a.example/x") = some "PAYLOAD"
    ∧ Event.connectOrigin "a.example" 80 ∈
        (handle_client_request
          { envAll with
            cache := applyCache envAll.cache
              (handle_client_request envAll "GET http://a.example/x HTTP/1.1\r\n\r\n").events }
          "POST http://a.example/x HTTP/1.1\r\n\r\n").events := by
  refine ⟨by decide, by decide⟩

/-- Claim C1 (amended): (1) a first valid GET or POST whose non-empty origin
response is received and whose cache write succeeds leaves the response
stored under the URL's key; (2) a second valid GET request for a URL whose
key is in the cache is answered with exactly the cached payload, verbatim,
followed by the connection close — no origin connection appears in the
trace.  (A second POST is forwarded to the origin again; see the
counterexample.) -/
theorem c1_amended :
    (∀ (env : Env) (request method url v : String) (pu : SplitResult) (host fr : String),
      pySplitWS (firstLine request) = [method, url, v] →
      (method = "GET" ∨ method = "POST") →
      urlparseE (rewriteUrl url) = .ok pu →
      pyHostname pu = some host →
      (method = "GET" → env.cache (get_cache_filename url) = none) →
      env.originConnectOk = true →
      buildRequest method (pathOrSlash pu) host request = .ok fr →
      env.clientSendOk 0 = true →
      recvConcat env.originChunks ≠ "" →
      env.cacheWriteOk = true →
      applyCache env.cache (handle_client_request env request).events (get_cache_filename url)
        = some (recvConcat env.originChunks))
    ∧ (∀ (env : Env) (request url v : String) (pu : SplitResult) (host payload : String),
      pySplitWS (firstLine request) = ["GET", url, v] →
      urlparseE (rewriteUrl url) = .ok pu →
      pyHostname pu = some host →
      env.cache (get_cache_filename url) = some payload →
      env.clientSendOk 0 = true →
      handle_client_request env request = ⟨[.sendClient payload, .closeClient], false⟩) := by
  constructor
  · intro env request method url v pu host fr hparse hm hurl hhost hmiss hconn hfr hsend hresp hw
    rw [forward_events env request method url v pu host fr hparse hm hurl hhost hmiss hconn
      hfr hsend]
    simp [applyCache, hresp, hw]
  · intro env request url v pu host payload hparse hurl hhost hcache hsend
    exact cachehit_events env request url v pu host payload hparse hurl hhost hcache hsend

set_option maxRecDepth 8000 in
/-- Claim C1 witness: both parts at concrete inputs. -/
theorem c1_witness :
    applyCache envAll.cache
        (handle_client_request envAll "GET http://a.example/x HTTP/1.1\r\n\r\n").events
        (get_cache_filename "http://a.example/x")
      = some (recvConcat envAll.originChunks)
    ∧ handle_client_request
        { envAll with
          cache := fun f =>
            if f = get_cache_filename "http://a.example/x" then some "PAYLOAD" else none }
        "GET http://a.example/x HTTP/1.1\r\n\r\n"
      = ⟨[.sendClient "PAYLOAD", .closeClient], false⟩ :=
  ⟨c1_amended.1 envAll "GET http://a.example/x HTTP/1.1\r\n\r\n" "GET" "http://a.example/x"
      "HTTP/1.1" ⟨"http", "a.example", "/x", "", ""⟩ "a.example"
      "GET /x HTTP/1.1\r\nHost: a.example\r\nConnection: close\r\n\r\n"
      (by decide) (Or.inl rfl) rfl rfl (fun _ => rfl) rfl rfl rfl (by decide) rfl,
   c1_amended.2
      { envAll with
        cache := fun f =>
          if f = get_cache_filename "http://a.example/x" then some "PAYLOAD" else none }
      "GET http://a.example/x HTTP/1.1\r\n\r\n" "http://a.example/x" "HTTP/1.1"
      ⟨"http", "a.example", "/x", "", ""⟩ "a.example" "PAYLOAD"
      (by decide) rfl rfl (by simp) rfl⟩

/-- Claim C6: when a non-empty origin response was received for a GET or
POST but the cache file write fails, the failure is only logged: the trace
is identical to the successful-write trace except that the cache-write
event is missing, and in both cases the already-fetched response bytes are
sent to the client unchanged before the close. -/
theorem c6_cache_write_failure (env : Env) (request method url v : String)
    (pu : SplitResult) (host fr : String)
    (hparse : pySplitWS (firstLine request) = [method, url, v])
    (hm : method = "GET" ∨ method = "POST")
    (hurl : urlparseE (rewriteUrl url) = .ok pu)
    (hhost : pyHostname pu = some host)
    (hmiss : method = "GET" → env.cache (get_cache_filename url) = none)
    (hconn : env.originConnectOk = true)
    (hfr : buildRequest method (pathOrSlash pu) host request = .ok fr)
    (hsend : env.clientSendOk 0 = true)
    (hresp : recvConcat env.originChunks ≠ "")
    (hw : env.cacheWriteOk = false) :
    handle_client_request env request =
      ⟨[.connectOrigin host 80, .sendOrigin fr,
        .sendClient (recvConcat env.originChunks), .closeClient], false⟩
    ∧ handle_client_request { env with cacheWriteOk := true } request =
      ⟨[.connectOrigin host 80, .sendOrigin fr,
        .cacheWrite (get_cache_filename url) (recvConcat env.originChunks),
        .sendClient (recvConcat env.originChunks), .closeClient], false⟩ := by
  constructor
  · rw [forward_events env request method url v pu host fr hparse hm hurl hhost hmiss hconn
      hfr hsend]
    simp [hw]
  · rw [forward_events { env with cacheWriteOk := true } request method url v pu host fr hparse
      hm hurl hhost hmiss hconn hfr hsend]
    simp [hresp]

set_option maxRecDepth 8000 in
/-- Claim C6 witness: a GET whose cache write fails still delivers the
fetched response. -/
theorem c6_witness :
    handle_client_request { envAll with cacheWriteOk := false }
        "GET http://a.example/x HTTP/1.1\r\n\r\n"
      = ⟨[.connectOrigin "a.example" 80,
          .sendOrigin "GET /x HTTP/1.1\r\nHost: a.example\r\nConnection: close\r\n\r\n",
          .sendClient (recvConcat envAll.originChunks), .closeClient], false⟩ :=
  (c6_cache_write_failure { envAll with cacheWriteOk := false }
      "GET http://a.example/x HTTP/1.1\r\n\r\n" "GET" "http://a.example/x" "HTTP/1.1"
      ⟨"http", "a.example", "/x", "", ""⟩ "a.example"
      "GET /x HTTP/1.1\r\nHost: a.example\r\nConnection: close\r\n\r\n"
      (by decide) (Or.inl rfl) rfl rfl (fun _ => rfl) rfl rfl rfl (by decide) rfl).1

set_option maxRecDepth 8000 in
/-- Claim C4 counterexample: (1) a POST with `Content-Length: 5` whose
buffered read carries the 8 bytes `helloXYZ` after the blank line forwards
a request whose body is all 8 bytes, not the first 5; (2) with two
`Content-Length` header lines (5 then 7) the forwarded value is the last
one, not the first. -/
theorem c4_counterexample :
    (handle_client_request envAll
        "POST http://a.example/p HTTP/1.1\r\nContent-Length: 5\r\n\r\nhelloXYZ").events
      = [.connectOrigin "a.example" 80,
         .sendOrigin
           "POST /p HTTP/1.1\r\nHost: a.example\r\nContent-Length: 5\r\nConnection: close\r\n\r\nhelloXYZ",
         .cacheWrite (get_cache_filename "http://a.example/p") "PAYLOAD",
         .sendClient "PAYLOAD", .closeClient]
    ∧ (handle_client_request envAll
        "POST http://a.example/p HTTP/1.1\r\nContent-Length: 5\r\nContent-Length: 7\r\n\r\nhello").events
      = [.connectOrigin "a.example" 80,
         .sendOrigin
           "POST /p HTTP/1.1\r\nHost: a.example\r\nContent-Length: 7\r\nConnection: close\r\n\r\nhello",
         .cacheWrite (get_cache_filename "http://a.example/p") "PAYLOAD",
         .sendClient "PAYLOAD", .closeClient] := by
  refine ⟨by decide, by decide⟩

/-- Claim C4 (amended): for every POST request, the forwarder takes the
Content-Length value from the last line containing `Content-Length` (each
matching line colon-split, trimmed, integer-parsed), takes the body as the
bytes strictly between the first and second blank-line separators of the
raw buffered request (all remaining bytes when no second separator exists)
when that value is positive, and transmits a request that declares the
parsed Content-Length but whose body is those bytes verbatim — it is not
trimmed to Content-Length bytes, so trailing bytes in the buffered read
are transmitted too. -/
theorem c4_amended (env : Env) (request url v : String) (pu : SplitResult)
    (host : String) (n : Int) (b : String) (rest : List String)
    (hparse : pySplitWS (firstLine request) = ["POST", url, v])
    (hurl : urlparseE (rewriteUrl url) = .ok pu)
    (hhost : pyHostname pu = some host)
    (hconn : env.originConnectOk = true)
    (hsend : env.clientSendOk 0 = true)
    (hcl : contentLengthLoop ((pySplitSep request "\n").drop 1) 0 = .ok n)
    (hn : 0 < n)
    (hbody : (pySplitSep request "\r\n\r\n").drop 1 = b :: rest) :
    Event.sendOrigin ("POST " ++ pathOrSlash pu ++ " HTTP/1.1\r\nHost: " ++ host ++
        "\r\nContent-Length: " ++ toString n ++ "\r\nConnection: close\r\n\r\n" ++ b)
      ∈ (handle_client_request env request).events := by
  have hfr : buildRequest "POST" (pathOrSlash pu) host request
      = .ok ("POST " ++ pathOrSlash pu ++ " HTTP/1.1\r\nHost: " ++ host ++
        "\r\nContent-Length: " ++ toString n ++ "\r\nConnection: close\r\n\r\n" ++ b) := by
    unfold buildRequest postBody
    rw [List.drop_one] at hcl hbody
    simp [hcl, hbody, hn]
  rw [forward_events env request "POST" url v pu host _ hparse (Or.inr rfl) hurl hhost
      (fun h => absurd h (by decide)) hconn hfr hsend]
  simp

set_option maxRecDepth 8000 in
/-- Claim C4 witness: the `helloXYZ` POST, through the amended theorem. -/
theorem c4_witness :
    Event.sendOrigin
        ("POST " ++ pathOrSlash ⟨"http", "a.example", "/p", "", ""⟩ ++
          " HTTP/1.1\r\nHost: " ++ "a.example" ++ "\r\nContent-Length: " ++ toString (5 : Int) ++
          "\r\nConnection: close\r\n\r\n" ++ "helloXYZ")
      ∈ (handle_client_request envAll
          "POST http://a.example/p HTTP/1.1\r\nContent-Length: 5\r\n\r\nhelloXYZ").events :=
  c4_amended envAll "POST http://a.example/p HTTP/1.1\r\nContent-Length: 5\r\n\r\nhelloXYZ"
    "http://a.example/p" "HTTP/1.1" ⟨"http", "a.example", "/p", "", ""⟩ "a.example" 5 "helloXYZ"
    [] (by decide) rfl rfl rfl rfl rfl (by decide) (by decide)

theorem findCharIdx_none : ∀ (l : List Char) (k : Nat), findCharIdx l k = none →
    containsChar l k = false := by
  intro l k
  induction l with
  | nil => intro _; rfl
  | cons c t ih =>
    intro h
    unfold findCharIdx at h
    by_cases hc : c.toNat = k
    · simp [hc] at h
    · simp [hc] at h
      simp [containsChar, hc]
      simpa [containsChar] using ih h

theorem findCharIdx_take : ∀ (l : List Char) (k i : Nat), findCharIdx l k = some i →
    containsChar (l.take i) k = false := by
  intro l
  induction l with
  | nil => intro k i h; simp [findCharIdx] at h
  | cons c t ih =>
    intro k i h
    unfold findCharIdx at h
    by_cases hc : c.toNat = k
    · simp [hc] at h
      subst h
      simp [containsChar]
    · simp [hc] at h
      rcases h with ⟨j, hj, hji⟩
      subst hji
      simp [containsChar, hc]
      simpa [containsChar] using ih k j hj

theorem containsChar_false_mono {l1 l2 : List Char} (k : Nat)
    (hsub : ∀ c, c ∈ l2 → c ∈ l1) (h : containsChar l1 k = false) :
    containsChar l2 k = false := by
  simp [containsChar] at h ⊢
  intro c hc
  exact h c (hsub c hc)

theorem querySplit_no63 (u3 : List Char) :
    containsChar (if containsChar u3 63 then splitAtCharFirst u3 63 else (u3, [])).1 63
      = false := by
  by_cases h : containsChar u3 63 = true
  · rw [if_pos h]
    unfold splitAtCharFirst
    cases hf : findCharIdx u3 63 with
    | none => exact absurd h (by simp [findCharIdx_none u3 63 hf])
    | some i => simpa using findCharIdx_take u3 63 i hf
  · rw [if_neg h]
    simpa using h

theorem rpartition_before_mem (l : List Char) (k : Nat) :
    ∀ c ∈ (rpartitionChar l k).1, c ∈ l := by
  unfold rpartitionChar
  split
  · intro c hc; exact List.mem_of_mem_take hc
  · intro c hc; simp at hc

theorem rpartition_after_mem (l : List Char) (k : Nat) :
    ∀ c ∈ (rpartitionChar l k).2.2, c ∈ l := by
  unfold rpartitionChar
  split
  · intro c hc; exact List.mem_of_mem_drop hc
  · intro c hc; exact hc

theorem splitparams_no (l : List Char) (k : Nat) (hk : k ≠ 47)
    (h : containsChar l k = false) : containsChar (splitparams l) k = false := by
  have hb := rpartition_before_mem l 47
  have ha := rpartition_after_mem l 47
  unfold splitparams
  split
  · split
    case h_1 i hf =>
      simp [containsChar] at h ⊢
      refine ⟨fun c hc => h c (hb c hc), ?_, fun c hc => h c (ha c (List.mem_of_mem_take hc))⟩
      exact fun he => hk he.symm
    case h_2 => exact h
  · split
    case h_1 i hf =>
      exact containsChar_false_mono k (fun c hc => List.mem_of_mem_take hc) h
    case h_2 => exact h

theorem urlsplitE_path_no63 (u : String) (r : SplitResult)
    (h : urlsplitE u = .ok r) : containsChar r.path.data 63 = false := by
  simp only [urlsplitE] at h
  split at h
  · exact absurd h (by simp)
  · injection h with h1
    subst h1
    exact querySplit_no63 _

theorem urlparseE_path_no63 (u : String) (r : SplitResult)
    (h : urlparseE u = .ok r) : containsChar r.path.data 63 = false := by
  cases hu : urlsplitE u with
  | error e => rw [urlparseE, hu] at h; exact absurd h (by simp)
  | ok r0 =>
    simp only [urlparseE, hu] at h
    have h0 := urlsplitE_path_no63 u r0 hu
    split at h
    · injection h with h1
      subst h1
      exact splitparams_no _ _ (by decide) h0
    · injection h with h1
      subst h1
      exact h0

theorem pathOrSlash_no63 (u : String) (r : SplitResult)
    (h : urlparseE u = .ok r) : containsChar (pathOrSlash r).data 63 = false := by
  unfold pathOrSlash
  split
  · decide
  · exact urlparseE_path_no63 u r h

/-- Claim C10: a forwarded GET request line carries only the parsed path
component of the target URL (`/` when the path is empty); the path can
never contain `?` (the query is split off by `urlparse` and silently
omitted), while the cache key is the MD5 of the full literal URL string,
query included. -/
theorem c10_query_omitted (env : Env) (request url v : String) (pu : SplitResult)
    (host : String)
    (hparse : pySplitWS (firstLine request) = ["GET", url, v])
    (hurl : urlparseE (rewriteUrl url) = .ok pu)
    (hhost : pyHostname pu = some host)
    (hmiss : env.cache (get_cache_filename url) = none)
    (hconn : env.originConnectOk = true)
    (hsend : env.clientSendOk 0 = true) :
    handle_client_request env request =
      ⟨[.connectOrigin host 80,
        .sendOrigin ("GET " ++ pathOrSlash pu ++ " HTTP/1.1\r\nHost: " ++ host ++
          "\r\nConnection: close\r\n\r\n")] ++
        (if recvConcat env.originChunks ≠ "" ∧ env.cacheWriteOk then
          [.cacheWrite (get_cache_filename url) (recvConcat env.originChunks)]
        else []) ++
        [.sendClient (recvConcat env.originChunks), .closeClient], false⟩
    ∧ containsChar (pathOrSlash pu).data 63 = false := by
  refine ⟨?_, pathOrSlash_no63 _ pu hurl⟩
  exact forward_events env request "GET" url v pu host _ hparse (Or.inl rfl) hurl hhost
    (fun _ => hmiss) hconn rfl hsend

set_option maxRecDepth 8000 in
/-- Claim C10 witness: a GET whose target carries the query `q=1`. -/
theorem c10_witness :
    handle_client_request envAll "GET http://a.example/x?q=1 HTTP/1.1\r\n\r\n" =
      ⟨[.connectOrigin "a.example" 80,
        .sendOrigin ("GET " ++ pathOrSlash ⟨"http", "a.example", "/x", "q=1", ""⟩ ++
          " HTTP/1.1\r\nHost: " ++ "a.example" ++ "\r\nConnection: close\r\n\r\n")] ++
        (if recvConcat envAll.originChunks ≠ "" ∧ envAll.cacheWriteOk then
          [.cacheWrite (get_cache_filename "http://a.example/x?q=1")
            (recvConcat envAll.originChunks)]
        else []) ++
        [.sendClient (recvConcat envAll.originChunks), .closeClient], false⟩
    ∧ containsChar (pathOrSlash ⟨"http", "a.example", "/x", "q=1", ""⟩).data 63 = false :=
  c10_query_omitted envAll "GET http://a.example/x?q=1 HTTP/1.1\r\n\r\n"
    "http://a.example/x?q=1" "HTTP/1.1" ⟨"http", "a.example", "/x", "q=1", ""⟩ "a.example"
    (by decide) rfl rfl rfl rfl rfl

theorem tunnelLoop_sends (sendOk : Nat → Bool) :
    ∀ (cs us : List RecvOutcome) (idx : Nat) (b : String),
      b ∈ clientSends (tunnelLoop sendOk cs us idx).events → b ∈ dataChunks us := by
  intro cs
  induction cs with
  | nil => intro us idx b hb; simp [tunnelLoop, clientSends] at hb
  | cons c cs ih =>
    intro us idx b hb
    cases c with
    | err => simp [tunnelLoop, clientSends] at hb
    | data d =>
      by_cases hd : d = ""
      · simp [tunnelLoop, hd, clientSends] at hb
      · cases us with
        | nil => simp [tunnelLoop, hd, clientSends] at hb
        | cons u us2 =>
          cases u with
          | err => simp [tunnelLoop, hd, clientSends] at hb
          | data e =>
            by_cases he : e = ""
            · simp [tunnelLoop, hd, he, clientSends] at hb
            · by_cases hs : sendOk idx = true
              · simp only [tunnelLoop, hd, he, hs, if_false, if_true, ite_false, ite_true,
                  clientSends, List.filterMap_cons] at hb
                simp at hb
                rcases hb with hb | hb
                · subst hb
                  simp [dataChunks]
                · have := ih us2 (idx + 1) b (by simpa [clientSends] using hb)
                  simp [dataChunks]
                  right
                  simpa [dataChunks] using this
              · simp [tunnelLoop, hd, he, hs, clientSends] at hb

theorem tunnelLoop_not_raised (sendOk : Nat → Bool) (hsend : ∀ n, sendOk n = true) :
    ∀ (cs us : List RecvOutcome) (idx : Nat),
      RecvOutcome.err ∉ cs → RecvOutcome.err ∉ us →
      (tunnelLoop sendOk cs us idx).raised = false := by
  intro cs
  induction cs with
  | nil => intro us idx _ _; rfl
  | cons c cs ih =>
    intro us idx hc hu
    cases c with
    | err => exact absurd (List.mem_cons_self _ _) hc
    | data d =>
      by_cases hd : d = ""
      · simp [tunnelLoop, hd]
      · cases us with
        | nil => simp [tunnelLoop, hd]
        | cons u us2 =>
          cases u with
          | err => exact absurd (List.mem_cons_self _ _) hu
          | data e =>
            by_cases he : e = ""
            · simp [tunnelLoop, hd, he]
            · simp [tunnelLoop, hd, he, hsend idx]
              exact ih us2 (idx + 1) (fun h => hc (List.mem_cons_of_mem _ h))
                (fun h => hu (List.mem_cons_of_mem _ h))

set_option maxRecDepth 8000 in
/-- Claim C3 counterexample: a CONNECT tunnel whose upstream connection
succeeds sends the 200, relays one client chunk, and then — when the
upstream `recv` raises — sends the 500 error response to the client *after*
the 200, even though the upstream peer never delivered any bytes. -/
theorem c3_counterexample :
    clientSends (handle_client_request envTunnelErr
        "CONNECT a.example:443 HTTP/1.1\r\n\r\n").events = [s200, s500]
    ∧ dataChunks envTunnelErr.tunnelUpstream = [] := by
  refine ⟨by decide, rfl⟩

/-- Claim C3 (amended): for every CONNECT request whose upstream connection
succeeds and whose relay encounters no socket exception, the bytes written
to the client are exactly one `200 Connection Established` followed only by
chunks received from the upstream peer, and the loop runs until a `recv`
returns zero bytes; if an exception occurs during the relay, a
`500 Internal Server Error` is additionally sent to the client after the
200 (see the counterexample). -/
theorem c3_amended (env : Env) (request url v : String) (pu : SplitResult) (po : Option Nat)
    (hparse : pySplitWS (firstLine request) = ["CONNECT", url, v])
    (hurl : urlparseE url = .ok pu)
    (hport : pyPortE pu = .ok po)
    (hconn : env.upstreamConnectOk = true)
    (hsend : ∀ n, env.clientSendOk n = true)
    (hcerr : RecvOutcome.err ∉ env.tunnelClient)
    (huerr : RecvOutcome.err ∉ env.tunnelUpstream) :
    (handle_client_request env request).raised = false
    ∧ ∃ rest, clientSends (handle_client_request env request).events = s200 :: rest
        ∧ ∀ b ∈ rest, b ∈ dataChunks env.tunnelUpstream := by
  have ht := tunnelLoop_not_raised env.clientSendOk hsend env.tunnelClient
    env.tunnelUpstream 1 hcerr huerr
  have hh : handle_https_request env 0 url =
      ⟨[.connectUpstream (pyHostname pu) (po.getD 443), .sendClient s200] ++
        (tunnelLoop env.clientSendOk env.tunnelClient env.tunnelUpstream 1).events ++
        [.closeClient],
       (tunnelLoop env.clientSendOk env.tunnelClient env.tunnelUpstream 1).sendIdx,
       false⟩ := by
    unfold handle_https_request
    simp [hurl, hport, hconn, hsend 0, ht]
  have hres : handle_client_request env request =
      ⟨[Event.connectUpstream (pyHostname pu) (po.getD 443), Event.sendClient s200] ++
        (tunnelLoop env.clientSendOk env.tunnelClient env.tunnelUpstream 1).events ++
        [Event.closeClient], false⟩ := by
    unfold handle_client_request
    rw [hparse]
    simp [hh]
  rw [hres]
  refine ⟨rfl,
    clientSends (tunnelLoop env.clientSendOk env.tunnelClient env.tunnelUpstream 1).events,
    ?_, ?_⟩
  · simp [clientSends, List.filterMap_append]
  · intro b hb
    exact tunnelLoop_sends env.clientSendOk env.tunnelClient env.tunnelUpstream 1 b hb

set_option maxRecDepth 8000 in
/-- Claim C3 witness: a clean exchange of one chunk each way. -/
theorem c3_witness :
    (handle_client_request envTunnelOk "CONNECT a.example:443 HTTP/1.1\r\n\r\n").raised
        = false
    ∧ ∃ rest,
        clientSends (handle_client_request envTunnelOk
          "CONNECT a.example:443 HTTP/1.1\r\n\r\n").events = s200 :: rest
        ∧ ∀ b ∈ rest, b ∈ dataChunks envTunnelOk.tunnelUpstream :=
  c3_amended envTunnelOk "CONNECT a.example:443 HTTP/1.1\r\n\r\n" "a.example:443"
    "HTTP/1.1" ⟨"a.example", "", "443", "", ""⟩ none
    (by decide) rfl rfl rfl (fun _ => rfl) (by decide) (by decide)

theorem httpsExcept_cases (env : Env) (evs : List Event) (idx : Nat) :
    (httpsExcept env evs idx).raised = true ∨
    Event.closeClient ∈ (httpsExcept env evs idx).events := by
  unfold httpsExcept
  split
  · right; simp
  · left; rfl

theorem https_raised_or_close (env : Env) (idx : Nat) (url : String) :
    (handle_https_request env idx url).raised = true ∨
    Event.closeClient ∈ (handle_https_request env idx url).events := by
  unfold handle_https_request
  split
  · left; rfl
  · split
    · left; rfl
    · split
      · split
        · dsimp only
          split
          · exact httpsExcept_cases env _ _
          · right; simp
        · exact httpsExcept_cases env _ _
      · exact httpsExcept_cases env _ _

set_option maxRecDepth 8000 in
/-- Claim C5 counterexample: when the client socket rejects writes (e.g.
the client already disconnected), an unparseable request raises inside the
`try`, the 400 write in the `except` block itself raises, and — there being
no `finally` — the close at line 149 is skipped: the exception escapes with
the client connection still open (no close event, `raised = true`). -/
theorem c5_counterexample :
    (handle_client_request { envAll with clientSendOk := fun _ => false } "X").events = []
    ∧ (handle_client_request { envAll with clientSendOk := fun _ => false } "X").raised
        = true := by
  refine ⟨by decide, by decide⟩

/-- Claim C5 (amended): on every exit path on which the writes to the client
socket do not themselves raise, the dispatcher closes the client connection
before returning and no exception escapes — success, cache hit, 405/400/500
rejection, or any exception caught by the handlers; if the error-response
write in an `except` block raises, the close is skipped and the exception
propagates (see the counterexample). -/
theorem c5_amended (env : Env) (request : String)
    (hsend : ∀ n, env.clientSendOk n = true) :
    (handle_client_request env request).raised = false
    ∧ Event.closeClient ∈ (handle_client_request env request).events := by
  have hc4 : ∀ evs idx, catch400 env evs idx
      = ⟨evs ++ [Event.sendClient s400, Event.closeClient], false⟩ :=
    fun evs idx => by simp [catch400, hsend idx]
  unfold handle_client_request
  split
  · split
    · -- CONNECT
      dsimp only
      split
      · simp [hc4]
      · next hr =>
        rcases https_raised_or_close env 0 _ with h | h
        · rw [h] at hr; exact absurd rfl hr
        · exact ⟨rfl, h⟩
    · split
      · simp [hsend 0]
      · split
        · simp [hc4]
        · split
          · simp [hsend 0]
          · dsimp only
            split
            · simp [hsend 0]
            · split
              · split
                · simp [hc4]
                · simp [hsend 0]
              · simp [hc4]
  · simp [hc4]

set_option maxRecDepth 8000 in
/-- Claim C5 witness: the amended theorem at a cache-hit-free GET under a
fully cooperative client. -/
theorem c5_witness :
    (handle_client_request envAll "GET http://a.example/x HTTP/1.1\r\n\r\n").raised = false
    ∧ Event.closeClient ∈
        (handle_client_request envAll "GET http://a.example/x HTTP/1.1\r\n\r\n").events :=
  c5_amended envAll "GET http://a.example/x HTTP/1.1\r\n\r\n" (fun _ => rfl)
